import Mathlib

/-!
Verification of the rate-limiting, element-matching, pacing and worker-loop
core of `unity_ads_humanized_bot_Version3.py`.

The Python counters `proxy_view_count` and `proxy_total_count` are
`defaultdict(int)`: a lookup of a missing key yields 0 and *inserts* the key
with value 0; insertion order is preserved.  We embed them as association
lists (`CounterMap`) with a default-0 read (`dget`), an insert-if-missing
operation (`dtouch`, the side effect of `defaultdict.__getitem__`), and an
update-or-append write (`dset`, Python `dict.__setitem__`).
-/

namespace WatchAdEarn

/-- Association-list embedding of a Python `defaultdict(int)` keyed by proxy id. -/
abbrev CounterMap := List (String × Nat)

/-- Read with default 0: the value part of `defaultdict.__getitem__`. -/
def dget : CounterMap → String → Nat
  | [], _ => 0
  | (k, v) :: rest, q => if k = q then v else dget rest q

/-- The mutation part of `defaultdict.__getitem__`: a missing key is inserted
with value 0 at the end (Python dicts preserve insertion order). -/
def dtouch : CounterMap → String → CounterMap
  | [], q => [(q, 0)]
  | (k, v) :: rest, q => if k = q then (k, v) :: rest else (k, v) :: dtouch rest q

/-- Python `dict.__setitem__`: update in place if the key is present,
otherwise append. -/
def dset : CounterMap → String → Nat → CounterMap
  | [], q, n => [(q, n)]
  | (k, v) :: rest, q, n => if k = q then (k, n) :: rest else (k, v) :: dset rest q n

/-- `MAX_VIEWS_PER_HOUR = 100` (the per-window cap). -/
def MAX_VIEWS_PER_HOUR : Nat := 100

/-- `MAX_TOTAL_VIEWS_PER_PROXY = 5000` (the lifetime cap). -/
def MAX_TOTAL_VIEWS_PER_PROXY : Nat := 5000

/-- `PROXIES = [f'proxy_{i+1}' for i in range(5)]`. -/
def PROXIES : List String := (List.range 5).map (fun i => "proxy_" ++ toString (i + 1))

/-- The two counter mappings shared by all workers, the reset ticker and the
status reader. -/
structure BotState where
  viewCount : CounterMap
  totalCount : CounterMap
deriving DecidableEq, Repr

/-- Result of the cap check at the top of the `watch_ads` loop
(lines 269-279 of the source). -/
inductive AcquireResult
  | Allowed
  | WindowExhausted
  | LifetimeExhausted
deriving DecidableEq, Repr

/-- The cap check at the top of each `watch_ads` cycle (source lines 271-279):
read `proxy_view_count[proxy_id]` (which touches the key); if it has reached
`MAX_VIEWS_PER_HOUR`, sleep and retry (WindowExhausted).  Otherwise read
`proxy_total_count[proxy_id]` (touching it); if it has reached
`MAX_TOTAL_VIEWS_PER_PROXY`, break out of the loop (LifetimeExhausted).
Otherwise proceed with the cycle (Allowed).  The window check runs first. -/
def tryAcquire (st : BotState) (pid : String) : AcquireResult × BotState :=
  if MAX_VIEWS_PER_HOUR ≤ dget (dtouch st.viewCount pid) pid then
    (.WindowExhausted, ⟨dtouch st.viewCount pid, st.totalCount⟩)
  else if MAX_TOTAL_VIEWS_PER_PROXY ≤ dget (dtouch st.totalCount pid) pid then
    (.LifetimeExhausted, ⟨dtouch st.viewCount pid, dtouch st.totalCount pid⟩)
  else
    (.Allowed, ⟨dtouch st.viewCount pid, dtouch st.totalCount pid⟩)

/-- Source lines 332-335: `proxy_view_count[proxy_id] += 1` and
`proxy_total_count[proxy_id] += 1` after a completed cycle. -/
def commit (st : BotState) (pid : String) : BotState :=
  ⟨dset st.viewCount pid (dget st.viewCount pid + 1),
   dset st.totalCount pid (dget st.totalCount pid + 1)⟩

/-- The body of `reset_views_hourly` once per window boundary
(source lines 202-205): `for k in proxy_view_count: proxy_view_count[k] = 0`.
Every existing key's view count becomes 0; `proxy_total_count` is untouched. -/
def resetWindow (st : BotState) : BotState :=
  ⟨st.viewCount.map (fun p => (p.1, 0)), st.totalCount⟩

/-- One line of the `/status` rendering:
`f"{k}: {proxy_view_count[k]} this hour, {proxy_total_count[k]} total"`. -/
def renderStatLine (k : String) (v t : Nat) : String :=
  k ++ ": " ++ toString v ++ " this hour, " ++ toString t ++ " total"

/-- The per-key iteration of `get_proxy_stats` (source lines 207-213): for each
configured proxy, read both counters (each read touches its `defaultdict`). -/
def getProxyStatsAux : List String → BotState → List String × BotState
  | [], st => ([], st)
  | k :: ks, st =>
    let line := renderStatLine k (dget st.viewCount k) (dget st.totalCount k)
    let r := getProxyStatsAux ks ⟨dtouch st.viewCount k, dtouch st.totalCount k⟩
    (line :: r.1, r.2)

/-- `get_proxy_stats` (source lines 207-213): render one line per configured
proxy under the lock and join them with newlines. -/
def getProxyStats (st : BotState) : String × BotState :=
  let r := getProxyStatsAux PROXIES st
  (String.intercalate "\n" r.1, r.2)

/-- The state at process start: both `defaultdict`s empty. -/
def initState : BotState := ⟨[], []⟩

/-- One atomic operation on the shared counters, as performed by the program:
a cap check by some worker, a commit by a worker whose cap check allowed the
cycle (the check holds at the commit instant: between a worker's Allowed and
its commit only resets and other identities' operations can intervene, none of
which invalidate Allowed for this identity), the hourly reset, or a status
read. -/
inductive Step : BotState → BotState → Prop
  | acquireStep (st : BotState) (pid : String) : Step st (tryAcquire st pid).2
  | commitStep (st : BotState) (pid : String)
      (h : (tryAcquire st pid).1 = AcquireResult.Allowed) :
      Step st (commit (tryAcquire st pid).2 pid)
  | resetStep (st : BotState) : Step st (resetWindow st)
  | statsStep (st : BotState) : Step st (getProxyStats st).2

/-- States reachable from process start by program operations. -/
def Reachable (st : BotState) : Prop := Relation.ReflTransGen Step initState st

/-! ### Basic lemmas about the counter maps -/

theorem dget_dtouch (m : CounterMap) (k q : String) :
    dget (dtouch m k) q = dget m q := by
  induction m with
  | nil =>
    by_cases h : k = q <;> simp [dtouch, dget, h]
  | cons p rest ih =>
    obtain ⟨k', v'⟩ := p
    by_cases h : k' = k
    · simp [dtouch, h]
    · by_cases h' : k' = q
      · subst h'
        simp [dtouch, dget, h]
      · simp [dtouch, dget, h, h', ih]

theorem dget_dset (m : CounterMap) (k : String) (n : Nat) (q : String) :
    dget (dset m k n) q = if k = q then n else dget m q := by
  induction m with
  | nil =>
    by_cases h : k = q <;> simp [dset, dget, h]
  | cons p rest ih =>
    obtain ⟨k', v'⟩ := p
    by_cases h : k' = k
    · subst h
      by_cases h' : k' = q <;> simp [dset, dget, h']
    · by_cases h' : k' = q
      · subst h'
        have hkq : ¬k = k' := fun hh => h hh.symm
        simp [dset, dget, h, hkq]
      · simp [dset, dget, h, h', ih]

theorem dget_reset (m : CounterMap) (q : String) :
    dget (m.map (fun p => (p.1, 0))) q = 0 := by
  induction m with
  | nil => simp [dget]
  | cons p rest ih =>
    by_cases h : p.1 = q <;> simp [dget, h, ih]

/-- In both branches of the cap check the view map is merely touched. -/
theorem tryAcquire_snd_view (st : BotState) (pid : String) :
    (tryAcquire st pid).2.viewCount = dtouch st.viewCount pid := by
  unfold tryAcquire
  split_ifs <;> rfl

/-- The cap check never changes any lifetime counter value. -/
theorem tryAcquire_snd_total (st : BotState) (pid q : String) :
    dget (tryAcquire st pid).2.totalCount q = dget st.totalCount q := by
  unfold tryAcquire
  split_ifs <;> simp [dget_dtouch]

/-- The cap check never changes any view counter value. -/
theorem tryAcquire_snd_view_dget (st : BotState) (pid q : String) :
    dget (tryAcquire st pid).2.viewCount q = dget st.viewCount q := by
  rw [tryAcquire_snd_view, dget_dtouch]

/-- Allowed means the view count was strictly below the window cap. -/
theorem allowed_view_lt (st : BotState) (pid : String)
    (h : (tryAcquire st pid).1 = AcquireResult.Allowed) :
    dget st.viewCount pid < MAX_VIEWS_PER_HOUR := by
  unfold tryAcquire at h
  rw [dget_dtouch] at h
  split_ifs at h with h1 h2
  · omega

/-- Allowed means the lifetime count was strictly below the lifetime cap. -/
theorem allowed_total_lt (st : BotState) (pid : String)
    (h : (tryAcquire st pid).1 = AcquireResult.Allowed) :
    dget st.totalCount pid < MAX_TOTAL_VIEWS_PER_PROXY := by
  unfold tryAcquire at h
  simp only [dget_dtouch] at h
  split_ifs at h with h1 h2
  · omega

/-- The status read never changes any view counter value. -/
theorem statsAux_view (ks : List String) (st : BotState) (q : String) :
    dget (getProxyStatsAux ks st).2.viewCount q = dget st.viewCount q := by
  induction ks generalizing st with
  | nil => rfl
  | cons k ks ih => simp [getProxyStatsAux, ih, dget_dtouch]

/-- The status read never changes any lifetime counter value. -/
theorem statsAux_total (ks : List String) (st : BotState) (q : String) :
    dget (getProxyStatsAux ks st).2.totalCount q = dget st.totalCount q := by
  induction ks generalizing st with
  | nil => rfl
  | cons k ks ih => simp [getProxyStatsAux, ih, dget_dtouch]

/-- A view count at or above the window cap yields WindowExhausted. -/
theorem tryAcquire_fst_window (st : BotState) (pid : String)
    (h : MAX_VIEWS_PER_HOUR ≤ dget st.viewCount pid) :
    (tryAcquire st pid).1 = AcquireResult.WindowExhausted := by
  unfold tryAcquire
  simp only [dget_dtouch]
  rw [if_pos h]

/-- Below the window cap, a lifetime count at or above the lifetime cap
yields LifetimeExhausted. -/
theorem tryAcquire_fst_life (st : BotState) (pid : String)
    (h1 : dget st.viewCount pid < MAX_VIEWS_PER_HOUR)
    (h2 : MAX_TOTAL_VIEWS_PER_PROXY ≤ dget st.totalCount pid) :
    (tryAcquire st pid).1 = AcquireResult.LifetimeExhausted := by
  unfold tryAcquire
  simp only [dget_dtouch]
  rw [if_neg (Nat.not_le.mpr h1), if_pos h2]

/-- Below both caps the cap check allows the cycle. -/
theorem tryAcquire_fst_allowed (st : BotState) (pid : String)
    (h1 : dget st.viewCount pid < MAX_VIEWS_PER_HOUR)
    (h2 : dget st.totalCount pid < MAX_TOTAL_VIEWS_PER_PROXY) :
    (tryAcquire st pid).1 = AcquireResult.Allowed := by
  unfold tryAcquire
  simp only [dget_dtouch]
  rw [if_neg (Nat.not_le.mpr h1), if_neg (Nat.not_le.mpr h2)]

/-- Every program operation preserves "all view counters are at most the
window cap". -/
theorem step_window_le (st st' : BotState) (hs : Step st st')
    (hle : ∀ q, dget st.viewCount q ≤ MAX_VIEWS_PER_HOUR) :
    ∀ q, dget st'.viewCount q ≤ MAX_VIEWS_PER_HOUR := by
  cases hs with
  | acquireStep pid =>
    intro q
    rw [tryAcquire_snd_view_dget]
    exact hle q
  | commitStep pid h =>
    intro q
    have hlt : dget st.viewCount pid < 100 := allowed_view_lt st pid h
    simp only [commit, tryAcquire_snd_view, dget_dset, dget_dtouch]
    by_cases hq : pid = q
    · subst hq
      rw [if_pos rfl]
      show dget st.viewCount pid + 1 ≤ 100
      omega
    · rw [if_neg hq]
      exact hle q
  | resetStep =>
    intro q
    simp [resetWindow, dget_reset]
  | statsStep =>
    intro q
    simp only [getProxyStats]
    rw [statsAux_view]
    exact hle q

/-- No program operation ever decreases a lifetime counter. -/
theorem step_total_mono (st st' : BotState) (hs : Step st st') (q : String) :
    dget st.totalCount q ≤ dget st'.totalCount q := by
  cases hs with
  | acquireStep pid =>
    rw [tryAcquire_snd_total]
  | commitStep pid h =>
    simp only [commit, dget_dset, tryAcquire_snd_total]
    by_cases hq : pid = q
    · subst hq
      rw [if_pos rfl]
      omega
    · rw [if_neg hq]
  | resetStep =>
    simp [resetWindow]
  | statsStep =>
    simp only [getProxyStats]
    rw [statsAux_total]

/-- Lifetime counters are non-decreasing along any sequence of operations. -/
theorem steps_total_mono (st st' : BotState)
    (hsteps : Relation.ReflTransGen Step st st') (q : String) :
    dget st.totalCount q ≤ dget st'.totalCount q := by
  induction hsteps with
  | refl => exact Nat.le_refl _
  | tail _ hstep ih => exact Nat.le_trans ih (step_total_mono _ _ hstep q)

/-- In every reachable state every view counter is at most the window cap. -/
theorem reachable_window_le (st : BotState) (h : Reachable st) :
    ∀ q, dget st.viewCount q ≤ MAX_VIEWS_PER_HOUR := by
  induction h with
  | refl =>
    intro q
    simp [initState, dget]
  | tail _ hstep ih => exact step_window_le _ _ hstep ih

/-! ### Claims C1, C2, C3 -/

/-- State used to refute claim C1: identity `proxy_1` has exhausted both the
window cap (100 views this hour) and the lifetime cap (5000 total views). -/
def c1CexState : BotState := ⟨[("proxy_1", 100)], [("proxy_1", 5000)]⟩

/-- Claim C1, counterexample.  At lifetimeCount = 5000 (the lifetime cap) but
windowCount = 100, the cap check of `watch_ads` returns WindowExhausted, not
LifetimeExhausted: the window check runs first, so the lifetime check does
not take precedence and the result is not independent of windowCount. -/
theorem c1_counterexample :
    MAX_TOTAL_VIEWS_PER_PROXY ≤ dget c1CexState.totalCount "proxy_1" ∧
    (tryAcquire c1CexState "proxy_1").1 ≠ AcquireResult.LifetimeExhausted ∧
    (tryAcquire c1CexState "proxy_1").1 = AcquireResult.WindowExhausted := by
  decide

/-- Claim C1, amended: for an identity whose lifetimeCount has reached the
lifetime cap, `tryAcquire` returns LifetimeExhausted whenever that identity's
windowCount is below the window cap (at windowCount at or above the window cap
the window check fires first and returns WindowExhausted instead), and since
lifetimeCount never decreases under any program operation, every later call
made while windowCount is below the window cap also returns LifetimeExhausted,
permanently halting that identity. -/
theorem c1_amended (st st' : BotState) (pid : String)
    (hcap : MAX_TOTAL_VIEWS_PER_PROXY ≤ dget st.totalCount pid)
    (hsteps : Relation.ReflTransGen Step st st')
    (hwin : dget st'.viewCount pid < MAX_VIEWS_PER_HOUR) :
    MAX_TOTAL_VIEWS_PER_PROXY ≤ dget st'.totalCount pid ∧
    (tryAcquire st' pid).1 = AcquireResult.LifetimeExhausted := by
  have hcap' : MAX_TOTAL_VIEWS_PER_PROXY ≤ dget st'.totalCount pid :=
    Nat.le_trans hcap (steps_total_mono st st' hsteps pid)
  exact ⟨hcap', tryAcquire_fst_life st' pid hwin hcap'⟩

/-- Witness for C1 (amended): a concrete halted identity stays halted across a
status read followed by an hourly reset. -/
theorem c1_amended_witness :
    MAX_TOTAL_VIEWS_PER_PROXY ≤
      dget (resetWindow (getProxyStats ⟨[("proxy_1", 40)], [("proxy_1", 5000)]⟩).2).totalCount
        "proxy_1" ∧
    (tryAcquire (resetWindow (getProxyStats ⟨[("proxy_1", 40)], [("proxy_1", 5000)]⟩).2)
        "proxy_1").1 = AcquireResult.LifetimeExhausted :=
  c1_amended ⟨[("proxy_1", 40)], [("proxy_1", 5000)]⟩ _ "proxy_1"
    (by decide)
    (Relation.ReflTransGen.tail
      (Relation.ReflTransGen.single (Step.statsStep _))
      (Step.resetStep _))
    (by decide)

/-- Claim C2: in every reachable state the view count of every identity is at
most the window cap at the instant the cap check is evaluated; concretely,
with windowCount = 99 and lifetimeCount below the lifetime cap the check
returns Allowed, the subsequent commit brings windowCount to 100, and the
next check returns WindowExhausted. -/
theorem c2_window_cap (st : BotState) (pid : String) (hreach : Reachable st)
    (st2 : BotState)
    (h99 : dget st2.viewCount pid = 99)
    (hlt : dget st2.totalCount pid < MAX_TOTAL_VIEWS_PER_PROXY) :
    dget st.viewCount pid ≤ MAX_VIEWS_PER_HOUR ∧
    (tryAcquire st2 pid).1 = AcquireResult.Allowed ∧
    dget (commit (tryAcquire st2 pid).2 pid).viewCount pid = MAX_VIEWS_PER_HOUR ∧
    (tryAcquire (commit (tryAcquire st2 pid).2 pid) pid).1 =
      AcquireResult.WindowExhausted := by
  have hview : dget (commit (tryAcquire st2 pid).2 pid).viewCount pid = 100 := by
    simp [commit, tryAcquire_snd_view, dget_dset, dget_dtouch, h99]
  refine ⟨reachable_window_le st hreach pid, ?_, hview, ?_⟩
  · exact tryAcquire_fst_allowed st2 pid (by rw [h99]; decide) hlt
  · exact tryAcquire_fst_window _ pid (by rw [hview]; decide)

/-- Witness for C2: the initial state is reachable, and a concrete state with
windowCount = 99, lifetimeCount = 4999 goes Allowed → commit → windowCount
100 → WindowExhausted. -/
theorem c2_window_cap_witness :
    dget initState.viewCount "proxy_1" ≤ MAX_VIEWS_PER_HOUR ∧
    (tryAcquire ⟨[("proxy_1", 99)], [("proxy_1", 4999)]⟩ "proxy_1").1 =
      AcquireResult.Allowed ∧
    dget (commit (tryAcquire ⟨[("proxy_1", 99)], [("proxy_1", 4999)]⟩ "proxy_1").2
        "proxy_1").viewCount "proxy_1" = MAX_VIEWS_PER_HOUR ∧
    (tryAcquire (commit (tryAcquire ⟨[("proxy_1", 99)], [("proxy_1", 4999)]⟩ "proxy_1").2
        "proxy_1") "proxy_1").1 = AcquireResult.WindowExhausted :=
  c2_window_cap initState "proxy_1" Relation.ReflTransGen.refl
    ⟨[("proxy_1", 99)], [("proxy_1", 4999)]⟩ (by decide) (by decide)

/-- Claim C3: the hourly reset sets the view count of every identity to 0,
keeps exactly the same set of known identities (in order), and leaves the
lifetime counter mapping entirely untouched. -/
theorem c3_reset_frame (st : BotState) (q : String) :
    dget (resetWindow st).viewCount q = 0 ∧
    (resetWindow st).viewCount.map Prod.fst = st.viewCount.map Prod.fst ∧
    (resetWindow st).totalCount = st.totalCount := by
  refine ⟨dget_reset st.viewCount q, ?_, rfl⟩
  simp [resetWindow]

/-! ### Element matcher (`find_all_possible_cross_buttons`, source lines 228-256) -/

/-- A UI element descriptor as read from the automation transport: attribute
strings, geometry, clickability, and the stable per-element identity key
(`getattr(el, 'id', None) or id(el)` in the source). -/
structure Element where
  elId : Nat
  text : String
  desc : String
  resId : String
  clsName : String
  clickable : Bool
  x : Nat
  y : Nat
  width : Nat
  height : Nat
deriving DecidableEq, Repr

/-- One dismissal heuristic: the predicate its UiAutomator selector denotes on
a single element, plus whether its query succeeds on this call (`ok = false`
models `driver.find_elements_by_android_uiautomator` raising, which the
source catches per heuristic). -/
structure Heuristic where
  pred : Element → Bool
  ok : Bool

/-- Running one heuristic's query against the current snapshot:
`none` models the query raising, otherwise the matching elements in snapshot
order. -/
def queryHeuristic (h : Heuristic) (snap : List Element) : Option (List Element) :=
  if h.ok then some (snap.filter h.pred) else none

/-- The dedup-append loop of the source: for each element, if its identity key
is not in `tried`, append the element to `found` and its key to `tried`. -/
def addNew : List Nat → List Element → List Element → List Element × List Nat
  | tried, found, [] => (found, tried)
  | tried, found, el :: rest =>
    if el.elId ∈ tried then addNew tried found rest
    else addNew (tried ++ [el.elId]) (found ++ [el]) rest

/-- The main heuristic loop of `find_all_possible_cross_buttons` (source lines
231-243): run each heuristic in configured order; a raising heuristic
contributes nothing; matches are dedup-appended. -/
def runHeuristics (snap : List Element) :
    List Heuristic → List Element × List Nat → List Element × List Nat
  | [], acc => acc
  | h :: hs, acc =>
    match queryHeuristic h snap with
    | none => runHeuristics snap hs acc
    | some els => runHeuristics snap hs (addNew acc.2 acc.1 els)

/-- The final fallback query (source line 245): all clickable elements, or
`none` when the query raises. -/
def fallbackQuery (fbOk : Bool) (snap : List Element) : Option (List Element) :=
  if fbOk then some (snap.filter (fun el => el.clickable)) else none

/-- The small-control filter of the fallback (source line 248):
`sz['width'] <= 120 and sz['height'] <= 120`. -/
def isSmallControl (el : Element) : Bool :=
  el.width ≤ 120 && el.height ≤ 120

/-- `find_all_possible_cross_buttons` (source lines 228-256): run all
heuristics with dedup, then dedup-append every small clickable element found
by the fallback; a raising fallback contributes nothing. -/
def findAllPossibleCrossButtons (snap : List Element) (hs : List Heuristic)
    (fbOk : Bool) : List Element :=
  let acc := runHeuristics snap hs ([], [])
  match fallbackQuery fbOk snap with
  | none => acc.1
  | some clickable => (addNew acc.2 acc.1 (clickable.filter isSmallControl)).1

/-- Spec-side decomposition of the matcher: the list of per-heuristic
contribution lists, in heuristic priority order. -/
def contribsAux (snap : List Element) : List Heuristic → List Nat → List (List Element)
  | [], _ => []
  | h :: hs, tried =>
    match queryHeuristic h snap with
    | none => [] :: contribsAux snap hs tried
    | some els => (addNew tried [] els).1 :: contribsAux snap hs (addNew tried [] els).2

/-- The set of identity keys seen after running the heuristic list. -/
def triedAfter (snap : List Element) : List Heuristic → List Nat → List Nat
  | [], tried => tried
  | h :: hs, tried =>
    match queryHeuristic h snap with
    | none => triedAfter snap hs tried
    | some els => triedAfter snap hs (addNew tried [] els).2

/-- Spec-side contribution of the small-clickable fallback, after all
heuristics have run. -/
def fallbackContrib (snap : List Element) (hs : List Heuristic) (fbOk : Bool) :
    List Element :=
  match fallbackQuery fbOk snap with
  | none => []
  | some clickable =>
    (addNew (triedAfter snap hs []) [] (clickable.filter isSmallControl)).1

/-- `addNew` appends its new elements after the already-found prefix. -/
theorem addNew_append (tried : List Nat) (found els : List Element) :
    addNew tried found els =
      (found ++ (addNew tried [] els).1, (addNew tried [] els).2) := by
  induction els generalizing tried found with
  | nil => simp [addNew]
  | cons el rest ih =>
    by_cases h : el.elId ∈ tried
    · rw [addNew, if_pos h, addNew, if_pos h, ih]
    · rw [addNew, if_neg h, addNew, if_neg h, ih]
      simp only [List.nil_append]
      rw [ih (tried ++ [el.elId]) [el]]
      simp

/-- The heuristic loop equals the prefix plus the joined contributions. -/
theorem runHeuristics_eq (snap : List Element) (hs : List Heuristic)
    (found : List Element) (tried : List Nat) :
    runHeuristics snap hs (found, tried) =
      (found ++ (contribsAux snap hs tried).flatten, triedAfter snap hs tried) := by
  induction hs generalizing found tried with
  | nil => simp [runHeuristics, contribsAux, triedAfter]
  | cons h hs ih =>
    cases hq : queryHeuristic h snap with
    | none =>
      rw [runHeuristics]
      simp only [hq, contribsAux, triedAfter, ih]
      simp [hq]
    | some els =>
      rw [runHeuristics]
      simp only [hq]
      rw [addNew_append, ih]
      simp only [contribsAux, triedAfter, hq]
      simp [List.flatten]

/-- Invariant carried through the dedup loop: the found elements have
pairwise-distinct identity keys, all already recorded in `tried`. -/
def FoundInv (found : List Element) (tried : List Nat) : Prop :=
  found.Pairwise (fun a b => a.elId ≠ b.elId) ∧ ∀ e ∈ found, e.elId ∈ tried

theorem addNew_inv (els : List Element) (found : List Element) (tried : List Nat)
    (h : FoundInv found tried) :
    FoundInv (addNew tried found els).1 (addNew tried found els).2 := by
  induction els generalizing found tried with
  | nil => exact h
  | cons el rest ih =>
    by_cases hmem : el.elId ∈ tried
    · rw [addNew, if_pos hmem]
      exact ih found tried h
    · rw [addNew, if_neg hmem]
      refine ih (found ++ [el]) (tried ++ [el.elId]) ⟨?_, ?_⟩
      · refine List.pairwise_append.mpr ⟨h.1, List.pairwise_singleton _ _, ?_⟩
        intro a ha b hb
        rw [List.mem_singleton] at hb
        subst hb
        intro heq
        exact hmem (heq ▸ h.2 a ha)
      · intro e he
        rcases List.mem_append.mp he with he | he
        · exact List.mem_append.mpr (Or.inl (h.2 e he))
        · rw [List.mem_singleton] at he
          subst he
          exact List.mem_append.mpr (Or.inr (List.mem_singleton.mpr rfl))

theorem runHeuristics_inv (snap : List Element) (hs : List Heuristic)
    (found : List Element) (tried : List Nat) (h : FoundInv found tried) :
    FoundInv (runHeuristics snap hs (found, tried)).1
      (runHeuristics snap hs (found, tried)).2 := by
  induction hs generalizing found tried with
  | nil => exact h
  | cons hh hs ih =>
    rw [runHeuristics]
    cases hq : queryHeuristic hh snap with
    | none => exact ih found tried h
    | some els =>
      have h2 := addNew_inv els found tried h
      have := ih (addNew tried found els).1 (addNew tried found els).2 h2
      simpa using this

/-- On an empty snapshot every heuristic query yields nothing. -/
theorem runHeuristics_empty (hs : List Heuristic)
    (acc : List Element × List Nat) :
    runHeuristics [] hs acc = acc := by
  induction hs generalizing acc with
  | nil => rfl
  | cons h hs ih =>
    obtain ⟨f, t⟩ := acc
    rw [runHeuristics]
    cases hq : queryHeuristic h [] with
    | none => exact ih (f, t)
    | some els =>
      have hels : els = [] := by
        unfold queryHeuristic at hq
        split_ifs at hq with hOk
        · simpa using hq.symm
      subst hels
      exact ih (f, t)

/-- Claim C4: for every snapshot, heuristic list and fallback outcome, the
candidate list returned by `find_all_possible_cross_buttons` contains each
identity key at most once (no element is double-counted even when several
heuristics or the fallback match it), and on an empty snapshot the result is
empty. -/
theorem c4_dedup (snap : List Element) (hs : List Heuristic) (fbOk : Bool) :
    (findAllPossibleCrossButtons snap hs fbOk).Pairwise
      (fun a b => a.elId ≠ b.elId) ∧
    findAllPossibleCrossButtons [] hs fbOk = [] := by
  constructor
  · have hinv : FoundInv ([] : List Element) ([] : List Nat) :=
      ⟨List.Pairwise.nil, by intro e he; cases he⟩
    have hrun := runHeuristics_inv snap hs [] [] hinv
    unfold findAllPossibleCrossButtons
    cases hq : fallbackQuery fbOk snap with
    | none => exact hrun.1
    | some clickable =>
      have := addNew_inv (clickable.filter isSmallControl)
        (runHeuristics snap hs ([], [])).1 (runHeuristics snap hs ([], [])).2 hrun
      exact this.1
  · unfold findAllPossibleCrossButtons
    rw [runHeuristics_empty]
    cases hq : fallbackQuery fbOk [] with
    | none => rfl
    | some clickable =>
      have : clickable = [] := by
        unfold fallbackQuery at hq
        split_ifs at hq with hOk
        · simpa using hq.symm
      subst this
      rfl

/-- Every element of a heuristic's contribution satisfies its predicate. -/
theorem addNew_subset (tried : List Nat) (found els : List Element) :
    ∀ e ∈ (addNew tried found els).1, e ∈ found ∨ e ∈ els := by
  induction els generalizing tried found with
  | nil =>
    intro e he
    exact Or.inl he
  | cons el rest ih =>
    intro e he
    by_cases hmem : el.elId ∈ tried
    · rw [addNew, if_pos hmem] at he
      rcases ih tried found e he with h | h
      · exact Or.inl h
      · exact Or.inr (List.mem_cons_of_mem _ h)
    · rw [addNew, if_neg hmem] at he
      rcases ih (tried ++ [el.elId]) (found ++ [el]) e he with h | h
      · rcases List.mem_append.mp h with h | h
        · exact Or.inl h
        · rw [List.mem_singleton] at h
          exact Or.inr (h ▸ List.mem_cons_self _ _)
      · exact Or.inr (List.mem_cons_of_mem _ h)

theorem contribs_pred (snap : List Element) (hs : List Heuristic) (tried : List Nat) :
    ∀ p ∈ hs.zip (contribsAux snap hs tried), ∀ e ∈ p.2, p.1.pred e = true := by
  induction hs generalizing tried with
  | nil =>
    intro p hp
    simp [contribsAux] at hp
  | cons h hs ih =>
    intro p hp
    cases hq : queryHeuristic h snap with
    | none =>
      rw [contribsAux] at hp
      simp only [hq] at hp
      rcases List.mem_cons.mp hp with hp | hp
      · subst hp
        intro e he
        cases he
      · exact ih tried p hp
    | some els =>
      rw [contribsAux] at hp
      simp only [hq] at hp
      rcases List.mem_cons.mp hp with hp | hp
      · subst hp
        intro e he
        have hin : e ∈ els := by
          rcases addNew_subset tried [] els e he with h0 | h0
          · cases h0
          · exact h0
        have hok : h.ok = true ∧ els = snap.filter h.pred := by
          unfold queryHeuristic at hq
          split_ifs at hq with hOk
          · exact ⟨hOk, by simpa using hq.symm⟩
        rw [hok.2] at hin
        exact (List.mem_filter.mp hin).2
      · exact ih (addNew tried [] els).2 p hp

theorem contribs_length (snap : List Element) (hs : List Heuristic) (tried : List Nat) :
    (contribsAux snap hs tried).length = hs.length := by
  induction hs generalizing tried with
  | nil => rfl
  | cons h hs ih =>
    rw [contribsAux]
    cases hq : queryHeuristic h snap <;> simp [ih]

/-- Claim C5: the matcher's result is exactly the concatenation, in configured
priority order, of the per-heuristic contribution lists (one per heuristic)
followed by the fallback's contribution, and every element of a heuristic's
contribution matches that heuristic; hence all elements contributed by an
earlier heuristic precede all elements first contributed by a later one, and
the caller's choice of candidate 0 is a deterministic function of the
snapshot, heuristic list and dedupe order. -/
theorem c5_priority_order (snap : List Element) (hs : List Heuristic) (fbOk : Bool) :
    findAllPossibleCrossButtons snap hs fbOk =
      (contribsAux snap hs []).flatten ++ fallbackContrib snap hs fbOk ∧
    (contribsAux snap hs []).length = hs.length ∧
    ∀ p ∈ hs.zip (contribsAux snap hs []), ∀ e ∈ p.2, p.1.pred e = true := by
  refine ⟨?_, contribs_length snap hs [], contribs_pred snap hs []⟩
  unfold findAllPossibleCrossButtons fallbackContrib
  rw [runHeuristics_eq]
  cases hq : fallbackQuery fbOk snap with
  | none => simp [hq]
  | some clickable =>
    simp only [hq, List.nil_append]
    rw [addNew_append]

/-- Claim C6: a heuristic whose query fails contributes zero elements and the
remaining heuristics and the fallback still run: the matcher returns exactly
what it returns with that heuristic removed, and never aborts. -/
theorem c6_partial_failure (snap : List Element) (pre post : List Heuristic)
    (h : Heuristic) (fbOk : Bool) (hfail : h.ok = false) :
    findAllPossibleCrossButtons snap (pre ++ h :: post) fbOk =
      findAllPossibleCrossButtons snap (pre ++ post) fbOk := by
  have hrun : ∀ acc, runHeuristics snap (pre ++ h :: post) acc =
      runHeuristics snap (pre ++ post) acc := by
    intro acc
    induction pre generalizing acc with
    | nil =>
      simp only [List.nil_append]
      rw [runHeuristics]
      have hq : queryHeuristic h snap = none := by
        unfold queryHeuristic
        rw [if_neg (by rw [hfail]; exact Bool.false_ne_true)]
      rw [hq]
    | cons g pre ih =>
      simp only [List.cons_append]
      rw [runHeuristics, runHeuristics]
      cases hq : queryHeuristic g snap with
      | none => exact ih _
      | some els => exact ih _
  unfold findAllPossibleCrossButtons
  rw [hrun]

/-- Witness for C6 at a concrete snapshot: a failing description heuristic
between two succeeding ones changes nothing. -/
theorem c6_partial_failure_witness :
    findAllPossibleCrossButtons
        [⟨1, "X", "close", "btn_close", "android.widget.ImageButton", true, 0, 0, 40, 40⟩,
         ⟨2, "Play", "", "btn_play", "android.widget.Button", true, 0, 50, 200, 200⟩]
        ([⟨fun e => e.text == "X", true⟩] ++
          ⟨fun e => e.desc == "close", false⟩ ::
            [⟨fun e => e.clsName == "android.widget.ImageButton", true⟩])
        true =
      findAllPossibleCrossButtons
        [⟨1, "X", "close", "btn_close", "android.widget.ImageButton", true, 0, 0, 40, 40⟩,
         ⟨2, "Play", "", "btn_play", "android.widget.Button", true, 0, 50, 200, 200⟩]
        ([⟨fun e => e.text == "X", true⟩] ++
          [⟨fun e => e.clsName == "android.widget.ImageButton", true⟩])
        true :=
  c6_partial_failure _ _ _ _ _ rfl

/-! ### Worker-loop dismissal search, parity selection, jitter tap, status -/

/-- The dismissal-search loop of `watch_ads` (source lines 316-327), abstracted
over the sequence of poll results inside the 50-time-unit timeout: each poll
is one `find_all_possible_cross_buttons` result; the loop stops at the first
non-empty poll and taps its first candidate (`cross_candidates[0]`); an
exhausted poll list models the timeout elapsing with nothing found. -/
def searchCross : List (List Element) → Option Element
  | [] => none
  | cands :: rest =>
    match cands with
    | [] => searchCross rest
    | c :: _ => some c

/-- Outcome of the tail of one `watch_ads` cycle (source lines 316-338). -/
structure CycleOutcome where
  tapped : Option Element
  closeFound : Bool
  newState : BotState

/-- The tail of one `watch_ads` cycle (source lines 316-338): search for a
dismissal control until the timeout; whether or not one was found, the cycle
is then committed (`proxy_view_count += 1`, `proxy_total_count += 1`) and the
worker proceeds to the between-ads pacing — a missed dismissal is logged, not
fatal. -/
def finishCycle (st : BotState) (pid : String) (polls : List (List Element)) :
    CycleOutcome :=
  match searchCross polls with
  | some c => ⟨some c, true, commit st pid⟩
  | none => ⟨none, false, commit st pid⟩

theorem searchCross_all_empty (polls : List (List Element))
    (h : ∀ p ∈ polls, p = []) : searchCross polls = none := by
  induction polls with
  | nil => rfl
  | cons p rest ih =>
    have hp : p = [] := h p (List.mem_cons_self _ _)
    subst hp
    rw [searchCross]
    exact ih (fun q hq => h q (List.mem_cons_of_mem _ hq))

theorem searchCross_found (empties : List (List Element)) (c : Element)
    (cs : List Element) (rest : List (List Element))
    (h : ∀ p ∈ empties, p = []) :
    searchCross (empties ++ (c :: cs) :: rest) = some c := by
  induction empties with
  | nil => rfl
  | cons p ps ih =>
    have hp : p = [] := h p (List.mem_cons_self _ _)
    subst hp
    rw [List.cons_append, searchCross]
    exact ih (fun q hq => h q (List.mem_cons_of_mem _ hq))

/-- Claim C7: if no dismissal candidate ever appears during the timed search,
the cycle taps nothing, raises no error, and still commits and proceeds to
the cooldown pacing; if a candidate list does appear, the first candidate of
that list is the one activated, and the cycle still commits. -/
theorem c7_dismissal_timeout (st : BotState) (pid : String)
    (empties rest : List (List Element)) (c : Element) (cs : List Element)
    (hempty : ∀ p ∈ empties, p = []) :
    (finishCycle st pid empties).tapped = none ∧
    (finishCycle st pid empties).newState = commit st pid ∧
    (finishCycle st pid (empties ++ (c :: cs) :: rest)).tapped = some c ∧
    (finishCycle st pid (empties ++ (c :: cs) :: rest)).newState = commit st pid := by
  have h1 := searchCross_all_empty empties hempty
  have h2 := searchCross_found empties c cs rest hempty
  unfold finishCycle
  rw [h1, h2]
  exact ⟨rfl, rfl, rfl, rfl⟩

/-- Witness for C7: three empty polls inside the timeout, then one concrete
close-button candidate. -/
theorem c7_dismissal_timeout_witness :
    (finishCycle initState "proxy_1" [[], [], []]).tapped = none ∧
    (finishCycle initState "proxy_1" [[], [], []]).newState =
      commit initState "proxy_1" ∧
    (finishCycle initState "proxy_1"
        ([[], [], []] ++
          [⟨7, "X", "close", "btn_close", "android.widget.ImageButton", true,
              10, 10, 40, 40⟩] :: [])).tapped =
      some ⟨7, "X", "close", "btn_close", "android.widget.ImageButton", true,
        10, 10, 40, 40⟩ ∧
    (finishCycle initState "proxy_1"
        ([[], [], []] ++
          [⟨7, "X", "close", "btn_close", "android.widget.ImageButton", true,
              10, 10, 40, 40⟩] :: [])).newState =
      commit initState "proxy_1" :=
  c7_dismissal_timeout initState "proxy_1" [[], [], []] [] _ []
    (by intro p hp; simpa using hp)

/-- The two primary-control categories of the alternation (source lines
292-302). -/
inductive AdCategory
  | Interstitial
  | Rewarded
deriving DecidableEq, Repr

/-- The action ordinal of the next cycle: `count = proxy_view_count[proxy_id] + 1`
(source line 272). -/
def cycleOrdinal (st : BotState) (pid : String) : Nat :=
  dget st.viewCount pid + 1

/-- The odd/even selection (source lines 293-302): odd count ⇒ the
Interstitial button, even count ⇒ the Rewarded button. -/
def selectCategory (ordinal : Nat) : AdCategory :=
  if ordinal % 2 = 1 then .Interstitial else .Rewarded

/-- Counter effect of a cycle in which no primary ad button was found (source
lines 304-307): the worker only ran the cap check (which touches the
counters' keys without changing any value) and then `continue`d without
committing. -/
def cycleNoPrimary (st : BotState) (pid : String) : BotState :=
  (tryAcquire st pid).2

/-- Claim C8: the primary-control category is a deterministic function of the
parity of the action ordinal — odd ordinal selects Interstitial (category A),
even selects Rewarded (category B) — and a cycle that finds no primary
control leaves the ordinal, and hence the next selected category,
unchanged. -/
theorem c8_parity_selection (st : BotState) (pid : String) :
    (cycleOrdinal st pid % 2 = 1 →
      selectCategory (cycleOrdinal st pid) = AdCategory.Interstitial) ∧
    (cycleOrdinal st pid % 2 = 0 →
      selectCategory (cycleOrdinal st pid) = AdCategory.Rewarded) ∧
    cycleOrdinal (cycleNoPrimary st pid) pid = cycleOrdinal st pid ∧
    selectCategory (cycleOrdinal (cycleNoPrimary st pid) pid) =
      selectCategory (cycleOrdinal st pid) := by
  have hord : cycleOrdinal (cycleNoPrimary st pid) pid = cycleOrdinal st pid := by
    unfold cycleOrdinal cycleNoPrimary
    rw [tryAcquire_snd_view_dget]
  refine ⟨?_, ?_, hord, by rw [hord]⟩
  · intro h
    unfold selectCategory
    rw [if_pos h]
  · intro h
    unfold selectCategory
    rw [if_neg (by omega)]

/-- The jitter offsets of `human_tap` (source lines 97-101): the press point is
`(loc['x'] + random.randint(5, max(6, size['width'] - 10)),
  loc['y'] + random.randint(5, max(6, size['height'] - 10)))`. -/
def tapPoint (el : Element) (rx ry : Nat) : Nat × Nat :=
  (el.x + rx, el.y + ry)

/-- Lower bound of the `randint` jitter range. -/
def jitterLow : Nat := 5

/-- Upper bound of the `randint` jitter range for one dimension:
`max(6, dim - 10)` (Python's negative `dim - 10` is below 6, matching Nat
truncated subtraction here). -/
def jitterHigh (dim : Nat) : Nat := max 6 (dim - 10)

/-- A 5x5 element at the origin, used to refute claim C9. -/
def tinyElem : Element := ⟨11, "X", "", "", "android.widget.ImageView", true, 0, 0, 5, 5⟩

/-- Claim C9, counterexample: on a 5x5 element the jitter range is
`randint(5, 6)`, and the admissible offset 6 lands the press point at x = 6,
outside the element's bounding rectangle [0, 5] — so the randomized press
point is not within bounds for all element sizes and random choices. -/
theorem c9_counterexample :
    jitterLow ≤ 6 ∧ 6 ≤ jitterHigh tinyElem.width ∧
    jitterLow ≤ 6 ∧ 6 ≤ jitterHigh tinyElem.height ∧
    tinyElem.x + tinyElem.width < (tapPoint tinyElem 6 6).1 ∧
    tinyElem.y + tinyElem.height < (tapPoint tinyElem 6 6).2 := by
  decide

/-- Claim C9, amended: for every element whose width and height are both at
least 6, every admissible choice of the jitter offsets lands the press point
within the element's bounding rectangle; for smaller elements the offset can
exceed the dimension and the press point can fall outside. -/
theorem c9_amended (el : Element) (rx ry : Nat)
    (hw : 6 ≤ el.width) (hh : 6 ≤ el.height)
    (hrx1 : jitterLow ≤ rx) (hrx2 : rx ≤ jitterHigh el.width)
    (hry1 : jitterLow ≤ ry) (hry2 : ry ≤ jitterHigh el.height) :
    el.x ≤ (tapPoint el rx ry).1 ∧ (tapPoint el rx ry).1 ≤ el.x + el.width ∧
    el.y ≤ (tapPoint el rx ry).2 ∧ (tapPoint el rx ry).2 ≤ el.y + el.height := by
  have hx : rx ≤ el.width := by
    have : jitterHigh el.width ≤ el.width :=
      max_le hw (Nat.sub_le el.width 10)
    omega
  have hy : ry ≤ el.height := by
    have : jitterHigh el.height ≤ el.height :=
      max_le hh (Nat.sub_le el.height 10)
    omega
  unfold tapPoint
  refine ⟨Nat.le_add_right _ _, by omega, Nat.le_add_right _ _, by omega⟩

/-- Witness for C9 (amended): a 50x30 element at (10, 20) with offsets
(7, 6). -/
theorem c9_amended_witness :
    (⟨12, "", "", "", "", true, 10, 20, 50, 30⟩ : Element).x ≤
      (tapPoint ⟨12, "", "", "", "", true, 10, 20, 50, 30⟩ 7 6).1 ∧
    (tapPoint ⟨12, "", "", "", "", true, 10, 20, 50, 30⟩ 7 6).1 ≤
      (⟨12, "", "", "", "", true, 10, 20, 50, 30⟩ : Element).x +
        (⟨12, "", "", "", "", true, 10, 20, 50, 30⟩ : Element).width ∧
    (⟨12, "", "", "", "", true, 10, 20, 50, 30⟩ : Element).y ≤
      (tapPoint ⟨12, "", "", "", "", true, 10, 20, 50, 30⟩ 7 6).2 ∧
    (tapPoint ⟨12, "", "", "", "", true, 10, 20, 50, 30⟩ 7 6).2 ≤
      (⟨12, "", "", "", "", true, 10, 20, 50, 30⟩ : Element).y +
        (⟨12, "", "", "", "", true, 10, 20, 50, 30⟩ : Element).height :=
  c9_amended _ 7 6 (by decide) (by decide) (by decide) (by decide)
    (by decide) (by decide)

/-- Claim C10, counterexample: on the initial state (both `defaultdict`s
empty) a status query inserts the five configured proxies into both mappings
with value 0, so the mappings afterwards are not identical to the mappings
before. -/
theorem c10_counterexample :
    (getProxyStats initState).2.viewCount ≠ initState.viewCount ∧
    (getProxyStats initState).2.totalCount ≠ initState.totalCount := by
  decide

/-- The spec-side pure rendering of the status message: one line per
configured proxy, showing the prior counter values. -/
def renderedStats (st : BotState) : String :=
  String.intercalate "\n"
    (PROXIES.map (fun k => renderStatLine k (dget st.viewCount k) (dget st.totalCount k)))

theorem statsAux_lines (ks : List String) (st : BotState) :
    (getProxyStatsAux ks st).1 =
      ks.map (fun k => renderStatLine k (dget st.viewCount k) (dget st.totalCount k)) := by
  induction ks generalizing st with
  | nil => rfl
  | cons k ks ih =>
    simp [getProxyStatsAux, ih, dget_dtouch]

/-- Claim C10, amended: a status query renders exactly the prior counter
values and leaves every counter value unchanged — reading any identity before
and after gives the same number in both mappings; the only mutation is that
the `defaultdict` reads insert explicit zero entries for configured
identities that were not yet present. -/
theorem c10_amended (st : BotState) (q : String) :
    (getProxyStats st).1 = renderedStats st ∧
    dget (getProxyStats st).2.viewCount q = dget st.viewCount q ∧
    dget (getProxyStats st).2.totalCount q = dget st.totalCount q := by
  refine ⟨?_, ?_, ?_⟩
  · simp only [getProxyStats, renderedStats]
    rw [statsAux_lines]
  · simp only [getProxyStats]
    rw [statsAux_view]
  · simp only [getProxyStats]
    rw [statsAux_total]

end WatchAdEarn
